import Mathlib

/-!
Verification development for the psn-tool repository.

Shallow embedding of the parts of the code that the checked properties
are about: token encryption (src/utils/encryption.py), the settings
database (src/utils/database.py), configuration / token management
(src/core/config.py), the in-process caches (src/utils/cache.py), the
PSN client (src/core/client.py), the data models (src/models.py), the
business-logic cogs (src/cogs/friends_cog.py, src/cogs/games_cog.py)
and the GUI background worker for the friends list (src/gui.py).
-/

set_option maxHeartbeats 1000000

/-! ## Byte-level helpers

Python strings are sequences of code points; `.encode("utf-8")` of a
printable-ASCII string is the list of its code points, each below 128.
Bytes are modelled as `Nat` with an explicit `< 256` bound where it
matters.
-/

/-- `s.encode("utf-8")` restricted to the code-point level: the list of
code points of the string.  For ASCII strings (every claim that needs
correctness restricts to printable ASCII) this is exactly the UTF-8
byte sequence. -/
def asciiEncode (s : String) : List Nat := s.data.map Char.toNat

/-- `bytes.decode("utf-8")` restricted to ASCII byte lists: succeeds
exactly on lists of bytes below 128 and yields the corresponding
string; non-ASCII sequences are rejected (Python would attempt a
multi-byte UTF-8 decode there, which no ciphertext produced by the
modelled encryptor ever contains). -/
def asciiDecode (l : List Nat) : Option String :=
  if l.all (fun b => b < 128) then some ⟨l.map Char.ofNat⟩ else none

/-! ## URL-safe base64 (the `base64.urlsafe_b64encode` / `urlsafe_b64decode`
framing used by `encrypt_token` / `decrypt_token` in src/utils/encryption.py).

Encoding follows RFC 4648 with the URL-safe alphabet.  CPython's
`b64decode` is called with `validate=False`, so characters outside the
base64 alphabet are discarded before decoding (documented CPython
behaviour); `b64decodePy` models that by filtering first and then
running a strict group decoder. -/

/-- The URL-safe base64 alphabet, in value order. -/
def b64Alphabet : List Char :=
  ['A','B','C','D','E','F','G','H','I','J','K','L','M','N','O','P',
   'Q','R','S','T','U','V','W','X','Y','Z',
   'a','b','c','d','e','f','g','h','i','j','k','l','m','n','o','p',
   'q','r','s','t','u','v','w','x','y','z',
   '0','1','2','3','4','5','6','7','8','9','-','_']

/-- Character for a 6-bit value. -/
def sextetChar (n : Nat) : Char := b64Alphabet.getD n '?'

/-- 6-bit value of an alphabet character, `none` for non-alphabet input. -/
def charSextet (c : Char) : Option Nat := b64Alphabet.findIdx? (fun d => d = c)

/-- Is `c` in the base64 alphabet? -/
def isB64Char (c : Char) : Bool := (charSextet c).isSome

/-- Characters retained by CPython's lenient decoder: the alphabet plus
the padding character. -/
def isB64OrPad (c : Char) : Bool := isB64Char c || c = '='

/-- base64 encoding of a byte list (URL-safe alphabet, `=` padding). -/
def b64e : List Nat → List Char
  | a :: b :: c :: rest =>
      sextetChar (a / 4) :: sextetChar ((a % 4) * 16 + b / 16) ::
      sextetChar ((b % 16) * 4 + c / 64) :: sextetChar (c % 64) :: b64e rest
  | [a, b] =>
      [sextetChar (a / 4), sextetChar ((a % 4) * 16 + b / 16),
       sextetChar ((b % 16) * 4), '=']
  | [a] =>
      [sextetChar (a / 4), sextetChar ((a % 4) * 16), '=', '=']
  | [] => []

/-- Strict base64 group decoder: processes four characters at a time,
accepts `=` padding only at the end, rejects anything else. -/
def b64d : List Char → Option (List Nat)
  | [] => some []
  | c1 :: c2 :: c3 :: c4 :: rest =>
      match charSextet c1, charSextet c2 with
      | some s1, some s2 =>
        if c3 = '=' then
          if c4 = '=' ∧ rest = [] then some [s1 * 4 + s2 / 16] else none
        else
          match charSextet c3 with
          | some s3 =>
            if c4 = '=' then
              if rest = [] then some [s1 * 4 + s2 / 16, (s2 % 16) * 16 + s3 / 4]
              else none
            else
              match charSextet c4, b64d rest with
              | some s4, some bs =>
                  some ((s1 * 4 + s2 / 16) :: ((s2 % 16) * 16 + s3 / 4) ::
                        ((s3 % 4) * 64 + s4) :: bs)
              | _, _ => none
          | none => none
      | _, _ => none
  | _ => none

/-- CPython `base64.urlsafe_b64decode` with `validate=False`: characters
outside the alphabet are discarded prior to decoding. -/
def b64decodePy (l : List Char) : Option (List Nat) := b64d (l.filter isB64OrPad)

/-! ## The symmetric cipher

Modelled from the spec: the cipher itself is the third-party Fernet
implementation from the `cryptography` package, which is not part of
this repository.  Section 4.5 of the spec describes it as "an
authenticated symmetric cipher (key size 32 bytes)": the model below
is that ideal functionality — encryption is injective, decryption
succeeds exactly on genuine ciphertexts of the same key and returns
the original plaintext, and fails on every other input. -/

/-- A Fernet key: a byte list; well-formed keys have length 32. -/
def wfKey (k : List Nat) : Prop := k.length = 32 ∧ ∀ b ∈ k, b < 256

/-- Modelled from the spec: `Fernet(key).encrypt` as ideal authenticated
encryption — the ciphertext determines the key and plaintext. -/
def fernetEncrypt (key pt : List Nat) : List Nat := key ++ pt

/-- Modelled from the spec: `Fernet(key).decrypt` as ideal authenticated
decryption — succeeds exactly on ciphertexts carrying the same key. -/
def fernetDecrypt (key ct : List Nat) : Option (List Nat) :=
  if ct.take 32 = key then some (ct.drop 32) else none

/-! ## encrypt_token / decrypt_token (src/utils/encryption.py lines 86-123) -/

/-- `encrypt_token(token)`: UTF-8 encode the token, encrypt with the
derived key, and frame the result with URL-safe base64. -/
def encryptToken (key : List Nat) (token : String) : String :=
  ⟨b64e (fernetEncrypt key (asciiEncode token))⟩

/-- `decrypt_token(encrypted_token)`: base64-decode, decrypt, UTF-8
decode; any failure is surfaced as an explicit invalid-data error
(Python `ValueError`), modelled as `Except.error`. -/
def decryptToken (key : List Nat) (ct : String) : Except String String :=
  match b64decodePy ct.data with
  | none => .error "Failed to decrypt token: invalid base64 payload"
  | some bytes =>
    match fernetDecrypt key bytes with
    | none => .error "Failed to decrypt token: invalid or foreign token"
    | some pt =>
      match asciiDecode pt with
      | none => .error "Failed to decrypt token: invalid utf-8 plaintext"
      | some s => .ok s

/-- A string is printable ASCII when every character is in `[32, 126]`. -/
def printableAscii (s : String) : Prop :=
  ∀ c ∈ s.data, 32 ≤ c.toNat ∧ c.toNat ≤ 126

instance (s : String) : Decidable (printableAscii s) :=
  inferInstanceAs (Decidable (∀ c ∈ s.data, _ ∧ _))

instance (k : List Nat) : Decidable (wfKey k) :=
  inferInstanceAs (Decidable (_ ∧ _))

/-! ### base64 lemmas -/

theorem charSextet_sextetChar {n : Nat} (h : n < 64) :
    charSextet (sextetChar n) = some n := by
  revert n h; decide

theorem sextetChar_ne_pad {n : Nat} (h : n < 64) : sextetChar n ≠ '=' := by
  revert n h; decide

theorem isB64OrPad_sextetChar {n : Nat} (h : n < 64) :
    isB64OrPad (sextetChar n) = true := by
  revert n h; decide

theorem isB64OrPad_pad : isB64OrPad '=' = true := by decide

/-- The encoder only emits alphabet characters and padding, so CPython's
discarding pass keeps an encoded string intact. -/
theorem filter_b64e (l : List Nat) (h : ∀ b ∈ l, b < 256) :
    (b64e l).filter isB64OrPad = b64e l := by
  match l with
  | [] => rfl
  | [a] =>
    have ha : a < 256 := h a (by simp)
    simp [b64e, List.filter,
      isB64OrPad_sextetChar (show a / 4 < 64 by omega),
      isB64OrPad_sextetChar (show (a % 4) * 16 < 64 by omega),
      isB64OrPad_pad]
  | [a, b] =>
    have ha : a < 256 := h a (by simp)
    have hb : b < 256 := h b (by simp)
    simp [b64e, List.filter,
      isB64OrPad_sextetChar (show a / 4 < 64 by omega),
      isB64OrPad_sextetChar (show (a % 4) * 16 + b / 16 < 64 by omega),
      isB64OrPad_sextetChar (show (b % 16) * 4 < 64 by omega),
      isB64OrPad_pad]
  | a :: b :: c :: rest =>
    have ha : a < 256 := h a (by simp)
    have hb : b < 256 := h b (by simp)
    have hc : c < 256 := h c (by simp)
    have ih := filter_b64e rest (fun x hx => h x (by simp [hx]))
    simp [b64e, List.filter,
      isB64OrPad_sextetChar (show a / 4 < 64 by omega),
      isB64OrPad_sextetChar (show (a % 4) * 16 + b / 16 < 64 by omega),
      isB64OrPad_sextetChar (show (b % 16) * 4 + c / 64 < 64 by omega),
      isB64OrPad_sextetChar (show c % 64 < 64 by omega), ih]

/-- Strict decode inverts encode on byte lists. -/
theorem b64d_b64e (l : List Nat) (h : ∀ b ∈ l, b < 256) :
    b64d (b64e l) = some l := by
  match l with
  | [] => rfl
  | [a] =>
    have ha : a < 256 := h a (by simp)
    simp [b64e, b64d,
      charSextet_sextetChar (show a / 4 < 64 by omega),
      charSextet_sextetChar (show (a % 4) * 16 < 64 by omega)]
    omega
  | [a, b] =>
    have ha : a < 256 := h a (by simp)
    have hb : b < 256 := h b (by simp)
    simp [b64e, b64d,
      charSextet_sextetChar (show a / 4 < 64 by omega),
      charSextet_sextetChar (show (a % 4) * 16 + b / 16 < 64 by omega),
      charSextet_sextetChar (show (b % 16) * 4 < 64 by omega),
      sextetChar_ne_pad (show (b % 16) * 4 < 64 by omega)]
    omega
  | a :: b :: c :: rest =>
    have ha : a < 256 := h a (by simp)
    have hb : b < 256 := h b (by simp)
    have hc : c < 256 := h c (by simp)
    have ih := b64d_b64e rest (fun x hx => h x (by simp [hx]))
    simp [b64e, b64d,
      charSextet_sextetChar (show a / 4 < 64 by omega),
      charSextet_sextetChar (show (a % 4) * 16 + b / 16 < 64 by omega),
      charSextet_sextetChar (show (b % 16) * 4 + c / 64 < 64 by omega),
      charSextet_sextetChar (show c % 64 < 64 by omega),
      sextetChar_ne_pad (show (b % 16) * 4 + c / 64 < 64 by omega),
      sextetChar_ne_pad (show c % 64 < 64 by omega), ih]
    omega

deriving instance DecidableEq for Except

/-! ### Character round-trip lemmas -/

theorem char_toNat_ofNat {b : Nat} (h : b < 128) : (Char.ofNat b).toNat = b := by
  revert b h; decide

theorem asciiDecode_asciiEncode (s : String) (h : printableAscii s) :
    asciiDecode (asciiEncode s) = some s := by
  have hcond : (asciiEncode s).all (fun b => decide (b < 128)) = true := by
    rw [List.all_eq_true]
    intro b hb
    rcases List.mem_map.1 hb with ⟨c, hc, rfl⟩
    have := h c hc
    simp only [decide_eq_true_eq]
    omega
  have hmap : (asciiEncode s).map Char.ofNat = s.data := by
    rw [asciiEncode, List.map_map]
    have he : ∀ c ∈ s.data, (Char.ofNat ∘ Char.toNat) c = id c := fun c _ => by
      simp [Function.comp]
    rw [List.map_congr_left he, List.map_id]
  simp only [asciiDecode, hcond, if_true]
  exact congrArg some (String.ext hmap)

theorem asciiEncode_of_asciiDecode {l : List Nat} {s : String}
    (h : asciiDecode l = some s) : asciiEncode s = l := by
  simp only [asciiDecode] at h
  split at h
  case isTrue hall =>
    simp only [Option.some.injEq] at h
    subst h
    simp only [asciiEncode, List.map_map]
    simp only [List.all_eq_true, decide_eq_true_eq] at hall
    have : ∀ b ∈ l, (Char.toNat ∘ Char.ofNat) b = id b := fun b hb => by
      simp [Function.comp, char_toNat_ofNat (hall b hb)]
    rw [List.map_congr_left this, List.map_id]
  case isFalse => exact absurd h (by simp)

/-! ### Cipher lemmas -/

theorem fernetDecrypt_fernetEncrypt {key : List Nat} (pt : List Nat)
    (hk : key.length = 32) :
    fernetDecrypt key (fernetEncrypt key pt) = some pt := by
  simp [fernetDecrypt, fernetEncrypt, List.take_left' hk, List.drop_left' hk]

theorem fernetDecrypt_foreign {key key2 : List Nat} (pt : List Nat)
    (hk2 : key2.length = 32) (hne : key2 ≠ key) :
    fernetDecrypt key (fernetEncrypt key2 pt) = none := by
  simp only [fernetDecrypt, fernetEncrypt, List.take_left' hk2]
  exact if_neg hne

theorem fernetEncrypt_bytes_lt {key : List Nat} {token : String}
    (hk : wfKey key) (ht : printableAscii token) :
    ∀ b ∈ fernetEncrypt key (asciiEncode token), b < 256 := by
  intro b hb
  rcases List.mem_append.1 hb with h | h
  · exact hk.2 b h
  · rcases List.mem_map.1 h with ⟨c, hc, rfl⟩
    have := ht c hc
    omega

/-- C1 (amended) main property; see `token_roundtrip_and_auth` below. -/
theorem decryptToken_encryptToken {key : List Nat} (token : String)
    (hk : wfKey key) (ht : printableAscii token) :
    decryptToken key (encryptToken key token) = .ok token := by
  have hbytes := fernetEncrypt_bytes_lt hk ht
  simp only [decryptToken, encryptToken, b64decodePy,
    filter_b64e _ hbytes, b64d_b64e _ hbytes,
    fernetDecrypt_fernetEncrypt _ hk.1, asciiDecode_asciiEncode _ ht]

/-- C1: token round-trip, failure on foreign-key ciphertexts, and
authentication soundness.  For any well-formed key and printable-ASCII
token, `decrypt_token(encrypt_token(token))` returns exactly `token`;
decrypting a ciphertext produced under a different key raises the
invalid-data error; and whenever decryption returns a plaintext at all,
the decoded payload of the input is the genuine encrypted payload of
that plaintext under the key (so decryption never yields a corrupted or
foreign plaintext).  The original claim that every tampered input
raises is refuted by `tampered_ciphertext_still_decrypts`: the base64
framing discards characters outside the alphabet before decoding. -/
theorem token_roundtrip_and_auth (key : List Nat) (token : String)
    (hk : wfKey key) (ht : printableAscii token) :
    decryptToken key (encryptToken key token) = .ok token ∧
    (∀ key2 token2, wfKey key2 → printableAscii token2 → key2 ≠ key →
        decryptToken key (encryptToken key2 token2) =
          .error "Failed to decrypt token: invalid or foreign token") ∧
    (∀ ct t, decryptToken key ct = .ok t →
        b64decodePy ct.data = some (fernetEncrypt key (asciiEncode t))) := by
  refine ⟨decryptToken_encryptToken token hk ht, ?_, ?_⟩
  · intro key2 token2 hk2 ht2 hne
    have hbytes := fernetEncrypt_bytes_lt hk2 ht2
    simp only [decryptToken, encryptToken, b64decodePy,
      filter_b64e _ hbytes, b64d_b64e _ hbytes,
      fernetDecrypt_foreign _ hk2.1 hne]
  · intro ct t hok
    simp only [decryptToken] at hok
    split at hok
    next => exact absurd hok (by simp)
    next bytes hb =>
      split at hok
      next => exact absurd hok (by simp)
      next pt hf =>
        split at hok
        next => exact absurd hok (by simp)
        next s ha =>
          simp only [Except.ok.injEq] at hok
          subst hok
          have hpt := asciiEncode_of_asciiDecode ha
          have hbytes : bytes = key ++ pt := by
            simp only [fernetDecrypt] at hf
            split at hf
            next htk =>
              simp only [Option.some.injEq] at hf
              rw [← htk, ← hf, List.take_append_drop]
            next => exact absurd hf (by simp)
          rw [hb, hpt, fernetEncrypt, ← hbytes]

/-- C1 witness: the round-trip conclusion evaluated at a concrete
all-zero 32-byte key and the token "abc". -/
theorem token_roundtrip_and_auth_witness :
    decryptToken (List.replicate 32 0)
      (encryptToken (List.replicate 32 0) "abc") = .ok "abc" :=
  (token_roundtrip_and_auth (List.replicate 32 0) "abc"
    (by decide) (by decide)).1

/-- C1 counterexample: appending the non-alphabet character `!` to a
genuine ciphertext yields a different string (a tampered ciphertext),
yet `decrypt_token` returns the plaintext instead of raising the
invalid-data error, because CPython's `b64decode` silently discards
characters outside the base64 alphabet. -/
theorem tampered_ciphertext_still_decrypts :
    encryptToken (List.replicate 32 0) "abc" ++ "!"
        ≠ encryptToken (List.replicate 32 0) "abc" ∧
    decryptToken (List.replicate 32 0)
        (encryptToken (List.replicate 32 0) "abc" ++ "!") = .ok "abc" := by
  constructor
  · decide
  · decide

/-! ## Python string helpers

`str.strip()`, `str.lower()`, `int(str)` and the `x` format spec, as
used by src/core/client.py.  Unicode-only behaviours (non-ASCII
whitespace and digits) are outside the modelled character set. -/

/-- Whitespace stripped by `str.strip()` (ASCII subset). -/
def isPyWs (c : Char) : Bool :=
  c = ' ' || c = '\t' || c = '\n' || c = '\r' || c.toNat = 11 || c.toNat = 12

/-- `str.strip()` on a character list. -/
def pyStripChars (l : List Char) : List Char :=
  ((l.dropWhile isPyWs).reverse.dropWhile isPyWs).reverse

/-- `str.strip()`. -/
def pyStrip (s : String) : String := ⟨pyStripChars s.data⟩

/-- `str.lower()` (ASCII subset; `Char.toLower` maps exactly `A`-`Z`). -/
def pyLower (s : String) : String := ⟨s.data.map Char.toLower⟩

/-- Digit run of `int()`: after the first digit, single underscores are
allowed between digits (PEP 515); accumulates the decimal value. -/
def digitsValGo (acc : Nat) : List Char → Option Nat
  | [] => some acc
  | '_' :: d :: rest =>
      if d.isDigit then digitsValGo (acc * 10 + (d.toNat - 48)) rest else none
  | d :: rest =>
      if d.isDigit then digitsValGo (acc * 10 + (d.toNat - 48)) rest else none

/-- Decimal digit run: requires a leading digit. -/
def digitsVal : List Char → Option Nat
  | [] => none
  | d :: rest => if d.isDigit then digitsValGo (d.toNat - 48) rest else none

/-- CPython `int(s)`: strip whitespace, optional sign, decimal digits
with optional single underscores between digits; anything else is a
`ValueError`, modelled as `none`. -/
def pyIntOfString (s : String) : Option Int :=
  match pyStripChars s.data with
  | '+' :: rest => (digitsVal rest).map (fun n => (n : Int))
  | '-' :: rest => (digitsVal rest).map (fun n => -(n : Int))
  | rest => (digitsVal rest).map (fun n => (n : Int))

/-- Fuel-driven base-16 digit emitter (digits prepended to `acc`);
`Nat.digitChar` yields the lowercase hex digits `0`-`9a-f`. -/
def natToHexCore : Nat → Nat → List Char → List Char
  | 0, _, acc => acc
  | fuel + 1, n, acc =>
    let d := Nat.digitChar (n % 16)
    if n / 16 = 0 then d :: acc else natToHexCore fuel (n / 16) (d :: acc)

/-- Lowercase hexadecimal digits of `n` (most significant first),
`['0']` for zero — the digits of Python `format(n, "x")`. -/
def natToHex (n : Nat) : List Char := natToHexCore (n + 1) n []

/-- Python `f"{i:x}"`: lowercase hex, no `0x` prefix, leading `-` for
negative values. -/
def intToHexPy (i : Int) : String :=
  if i < 0 then ⟨'-' :: natToHex i.natAbs⟩ else ⟨natToHex i.natAbs⟩

/-- The resign-ID derivation shared by `PSNClient._fetch_profile`
(src/core/client.py lines 134-139) and `PSNClient.search_user`
(lines 503-508): `int(account_id)` formatted with `"x"`, or `"N/A"`
when the conversion raises. -/
def resignIdOfAccountId (accountId : String) : String :=
  match pyIntOfString accountId with
  | some n => intToHexPy n
  | none => "N/A"

/-! ### Hexadecimal re-interpretation, to certify that `natToHex` really
is a base-16 lowercase representation. -/

/-- Value of one lowercase hex digit. -/
def hexCharVal (c : Char) : Option Nat :=
  if c.isDigit then some (c.toNat - 48)
  else if 97 ≤ c.toNat ∧ c.toNat ≤ 102 then some (c.toNat - 87) else none

/-- Left fold interpreting hex digits. -/
def hexValGo (acc : Nat) : List Char → Option Nat
  | [] => some acc
  | c :: rest =>
    match hexCharVal c with
    | some v => hexValGo (acc * 16 + v) rest
    | none => none

/-- Interpret a non-empty list of lowercase hex digits. -/
def hexVal (l : List Char) : Option Nat :=
  match l with
  | [] => none
  | _ => hexValGo 0 l

theorem hexCharVal_digitChar {n : Nat} (h : n < 16) :
    hexCharVal (Nat.digitChar n) = some n := by
  revert n h; decide

theorem natToHexCore_ne_nil {fuel n : Nat} {acc : List Char}
    (h : natToHexCore fuel n acc = []) : acc = [] ∧ fuel = 0 := by
  induction fuel generalizing n acc with
  | zero => exact ⟨h, rfl⟩
  | succ fuel ih =>
    simp only [natToHexCore] at h
    split at h
    · exact absurd h (by simp)
    · exact absurd (ih h).1 (by simp)

theorem hexValGo_natToHexCore {fuel : Nat} :
    ∀ {n : Nat} {acc : List Char}, n < 16 ^ fuel →
      hexValGo 0 (natToHexCore fuel n acc) = hexValGo n acc := by
  induction fuel with
  | zero => intro n acc h; interval_cases n; rfl
  | succ fuel ih =>
    intro n acc h
    simp only [natToHexCore]
    split
    next h0 =>
      simp only [hexValGo, hexCharVal_digitChar (Nat.mod_lt n (by omega))]
      congr 1
      omega
    next h0 =>
      have hdiv : n / 16 < 16 ^ fuel := by
        rw [Nat.div_lt_iff_lt_mul (show 0 < 16 by omega)]
        have hp : (16 : Nat) ^ (fuel + 1) = 16 ^ fuel * 16 := by ring
        omega
      rw [ih hdiv]
      simp only [hexValGo, hexCharVal_digitChar (Nat.mod_lt n (by omega))]
      congr 1
      omega

/-- `natToHex` is faithful: re-interpreting its digits in base 16
recovers the number. -/
theorem hexVal_natToHex (n : Nat) : hexVal (natToHex n) = some n := by
  have hne : natToHex n ≠ [] := by
    intro h
    exact absurd (natToHexCore_ne_nil h).2 (by simp)
  have hlt : n < 16 ^ (n + 1) := by
    calc n < 2 ^ n := Nat.lt_two_pow n
      _ ≤ 16 ^ n := Nat.pow_le_pow_left (by omega) n
      _ ≤ 16 ^ (n + 1) := Nat.pow_le_pow_right (by omega) (by omega)
  have hgo := @hexValGo_natToHexCore (n + 1) n [] hlt
  cases h2 : natToHex n with
  | nil => exact absurd h2 hne
  | cons c rest =>
    have hv : hexVal (c :: rest) = hexValGo 0 (c :: rest) := rfl
    rw [hv, ← h2]
    exact hgo

/-- C6: for every account ID string that `int()` accepts, the derived
resign ID is the integer's lowercase hexadecimal representation with no
prefix (certified by re-interpreting the emitted digits in base 16);
for every string `int()` rejects, the resign ID is the literal "N/A".
Shared by `_fetch_profile` and `search_user`. -/
theorem resign_id_derivation (s : String) :
    (∀ n : Int, pyIntOfString s = some n →
        resignIdOfAccountId s = intToHexPy n ∧
        (0 ≤ n → hexVal (intToHexPy n).data = some n.natAbs) ∧
        (n < 0 → (intToHexPy n).data = '-' :: natToHex n.natAbs ∧
            hexVal (natToHex n.natAbs) = some n.natAbs)) ∧
    (pyIntOfString s = none → resignIdOfAccountId s = "N/A") := by
  constructor
  · intro n h
    refine ⟨by simp [resignIdOfAccountId, h], ?_, ?_⟩
    · intro hn
      rw [intToHexPy, if_neg (by omega)]
      exact hexVal_natToHex n.natAbs
    · intro hn
      rw [intToHexPy, if_pos hn]
      exact ⟨rfl, hexVal_natToHex n.natAbs⟩
  · intro h
    simp [resignIdOfAccountId, h]

/-- C6 witness: account ID "1000" yields resign ID "3e8", and a
non-numeric account ID yields "N/A". -/
theorem resign_id_derivation_witness :
    resignIdOfAccountId "1000" = "3e8" ∧ resignIdOfAccountId "abc" = "N/A" := by
  constructor
  · have h := (resign_id_derivation "1000").1 1000 (by decide)
    exact h.1.trans (by decide)
  · exact (resign_id_derivation "abc").2 (by decide)

/-! ## Data models (src/models.py) -/

/-- `TrophyData` dataclass: per-tier counts, level, and a caller-filled
total. -/
structure TrophyData where
  bronze : Nat := 0
  silver : Nat := 0
  gold : Nat := 0
  platinum : Nat := 0
  level : Nat := 0
  total_count : Nat := 0
deriving DecidableEq

/-- `GameData` dataclass: one play-history entry. -/
structure GameData where
  name : String
  play_count : Nat := 0
  category : String := ""
  platform : String := ""
  title_id : String := ""
  progress : Option Nat := none
  play_duration : Option String := none
  first_played : Option String := none
  last_played : Option String := none
  image_url : Option String := none
deriving DecidableEq

/-- `UserProfile` dataclass: one PSN account snapshot. -/
structure UserProfile where
  online_id : String
  account_id : String
  resign_id : String
  region : String
  avatar_url : Option String := none
  trophies : Option TrophyData := none
  last_online : Option String := none
  profile_base64 : Option String := none
deriving DecidableEq

/-! ## Settings database (src/utils/database.py)

One row of the `settings` table.  Timestamps are modelled as an
abstract clock value (`Nat`) equal to `CURRENT_TIMESTAMP` at the moment
of the write; each write receives the clock as an explicit argument. -/

structure SettingsRow where
  key : String
  value : String
  created_at : Nat
  updated_at : Nat
deriving DecidableEq

/-- `get_setting(key, encrypted)` (database.py lines 131-156): look the
key up; with `encrypted=True` a decryption failure is logged and
reported as no value (`none`), exactly like an absent row. -/
def getSetting (cryptKey : List Nat) (key : String) (encrypted : Bool)
    (db : List SettingsRow) : Option String :=
  match db.find? (fun r => r.key = key) with
  | none => none
  | some r =>
    if encrypted then
      match decryptToken cryptKey r.value with
      | .ok v => some v
      | .error _ => none
    else some r.value

/-- `set_setting(key, value, encrypt)` (database.py lines 159-182):
`INSERT OR REPLACE INTO settings (key, value, updated_at)` — on a key
conflict SQLite deletes the old row and inserts a fresh one, so the
omitted `created_at` column is re-filled from its
`DEFAULT CURRENT_TIMESTAMP`, i.e. both timestamps become `now`. -/
def setSetting (cryptKey : List Nat) (key value : String) (encrypt : Bool)
    (now : Nat) (db : List SettingsRow) : List SettingsRow :=
  let v := if encrypt then encryptToken cryptKey value else value
  db.filter (fun r => ¬(r.key = key)) ++ [⟨key, v, now, now⟩]

/-! ## Configuration / token management (src/core/config.py) -/

/-- Python truthiness of an optional string (`if token:`): `None` and
the empty string are falsy. -/
def pyTruthy : Option String → Bool
  | none => false
  | some s => !(s = "" : Bool)

/-- `set_npsso_token(token)` (config.py lines 65-73): write the `npsso`
setting through the encrypting path. -/
def setNpssoToken (cryptKey : List Nat) (token : String) (now : Nat)
    (db : List SettingsRow) : List SettingsRow :=
  setSetting cryptKey "npsso" token true now db

/-- `get_npsso_token()` (config.py lines 42-62): read the encrypted
form first; if falsy, fall back to the unencrypted legacy value and,
when that is truthy, immediately re-save it through the encrypting
path (one-time migration).  Returns the retrieved value together with
the resulting settings table. -/
def getNpssoToken (cryptKey : List Nat) (now : Nat) (db : List SettingsRow) :
    Option String × List SettingsRow :=
  let token1 := getSetting cryptKey "npsso" true db
  if pyTruthy token1 then (token1, db)
  else
    let token2 := getSetting cryptKey "npsso" false db
    if pyTruthy token2 then
      (token2, setNpssoToken cryptKey (token2.getD "") now db)
    else (none, db)

/-! ### Settings lemmas -/

/-- After an upsert, looking the key up finds exactly the fresh row. -/
theorem find?_setSetting (cryptKey : List Nat) (k v : String) (enc : Bool)
    (now : Nat) (db : List SettingsRow) :
    (setSetting cryptKey k v enc now db).find? (fun r => r.key = k)
      = some ⟨k, if enc then encryptToken cryptKey v else v, now, now⟩ := by
  simp only [setSetting, List.find?_append]
  have h1 : (db.filter (fun r => ¬(r.key = k))).find? (fun r => r.key = k)
      = none := by
    rw [List.find?_eq_none]
    intro r hr
    have := (List.mem_filter.1 hr).2
    simpa using this
  rw [h1]
  simp [List.find?]

/-- C3 counterexample: writing key "k" with value "a" at time 1 and
value "b" at time 2 leaves a row whose `created_at` is 2, not the
first write's 1 — `INSERT OR REPLACE` resets `created_at`. -/
theorem settings_upsert_resets_created_at :
    setSetting [] "k" "b" false 2 (setSetting [] "k" "a" false 1 [])
      = [⟨"k", "b", 2, 2⟩] ∧
    ∀ r ∈ setSetting [] "k" "b" false 2 (setSetting [] "k" "a" false 1 []),
      r.created_at ≠ 1 := by
  constructor
  · decide
  · decide

/-- C3 (amended): writing the same settings key twice with different
values leaves exactly one row for that key, containing the second
value, with `updated_at` equal to the second write's timestamp — and
`created_at` equal to the second write's timestamp as well, because
`INSERT OR REPLACE` deletes the conflicting row and re-applies the
`created_at` default rather than preserving the first write's value. -/
theorem settings_upsert (cryptKey : List Nat) (k v1 v2 : String)
    (t1 t2 : Nat) (db : List SettingsRow) :
    (setSetting cryptKey k v2 false t2
        (setSetting cryptKey k v1 false t1 db)).filter (fun r => r.key = k)
      = [⟨k, v2, t2, t2⟩] := by
  simp only [setSetting, List.filter_append, List.filter_filter]
  have h1 : ∀ (l : List SettingsRow),
      l.filter (fun r => decide (r.key = k) && decide ¬(r.key = k)) = [] := by
    intro l
    rw [List.filter_eq_nil_iff]
    intro r hr
    simp
  rw [h1]
  simp [List.filter]

/-- Shared helper: when the stored `npsso` value is non-empty and fails
decryption, `get_npsso_token` falls back to the raw stored string and
re-saves it through the encrypting path. -/
theorem getNpssoToken_fallback (cryptKey : List Nat) (t : Nat)
    (db : List SettingsRow) (r : SettingsRow)
    (hfind : db.find? (fun row => row.key = "npsso") = some r)
    (hne : r.value ≠ "")
    (hdec : (decryptToken cryptKey r.value).isOk = false) :
    getSetting cryptKey "npsso" true db = none ∧
    getNpssoToken cryptKey t db
      = (some r.value, setSetting cryptKey "npsso" r.value true t db) := by
  have h1 : getSetting cryptKey "npsso" true db = none := by
    simp only [getSetting, hfind]
    rcases hd : decryptToken cryptKey r.value with e | v
    · simp
    · rw [hd] at hdec; simp [Except.isOk, Except.toBool] at hdec
  have h2 : getSetting cryptKey "npsso" false db = some r.value := by
    simp only [getSetting, hfind]
    simp
  refine ⟨h1, ?_⟩
  simp only [getNpssoToken, h1, h2, pyTruthy, Bool.false_eq_true, if_false]
  rw [if_pos (by simpa [pyTruthy] using hne)]
  simp [setNpssoToken]

/-- C4: for a stored legacy plain-text `npsso` value `v` (non-empty and
not decryptable), two successive calls of `get_npsso_token` both return
`v`; after the first call the stored form is the encrypted form, the
encrypted read on the migrated table already yields `v`, and the second
call leaves the table unchanged — the unencrypted fallback never fires
again. -/
theorem npsso_migration_idempotent (cryptKey : List Nat) (t1 t2 : Nat)
    (db : List SettingsRow) (r : SettingsRow)
    (hfind : db.find? (fun row => row.key = "npsso") = some r)
    (hne : r.value ≠ "")
    (hdec : (decryptToken cryptKey r.value).isOk = false)
    (hk : wfKey cryptKey) (hv : printableAscii r.value) :
    (getNpssoToken cryptKey t1 db).1 = some r.value ∧
    (getNpssoToken cryptKey t1 db).2.find? (fun row => row.key = "npsso")
      = some ⟨"npsso", encryptToken cryptKey r.value, t1, t1⟩ ∧
    getSetting cryptKey "npsso" true (getNpssoToken cryptKey t1 db).2
      = some r.value ∧
    getNpssoToken cryptKey t2 (getNpssoToken cryptKey t1 db).2
      = (some r.value, (getNpssoToken cryptKey t1 db).2) := by
  have hfb := (getNpssoToken_fallback cryptKey t1 db r hfind hne hdec).2
  have hfind1 : (getNpssoToken cryptKey t1 db).2.find?
      (fun row => row.key = "npsso")
      = some ⟨"npsso", encryptToken cryptKey r.value, t1, t1⟩ := by
    rw [hfb]
    simpa using find?_setSetting cryptKey "npsso" r.value true t1 db
  have hget1 : getSetting cryptKey "npsso" true (getNpssoToken cryptKey t1 db).2
      = some r.value := by
    simp only [getSetting, hfind1]
    simp [decryptToken_encryptToken r.value hk hv]
  refine ⟨by rw [hfb], hfind1, hget1, ?_⟩
  generalize (getNpssoToken cryptKey t1 db).2 = db1 at hget1 ⊢
  simp only [getNpssoToken, hget1, pyTruthy]
  simp [hne]

/-- C4 witness: a concrete legacy table holding the plain token
"legacytoken" under an all-zero key. -/
theorem npsso_migration_idempotent_witness :
    (getNpssoToken (List.replicate 32 0) 1
        [⟨"npsso", "legacytoken", 0, 0⟩]).1 = some "legacytoken" :=
  (npsso_migration_idempotent (List.replicate 32 0) 1 2
    [⟨"npsso", "legacytoken", 0, 0⟩] ⟨"npsso", "legacytoken", 0, 0⟩
    (by decide) (by decide) (by decide) (by decide) (by decide)).1

/-- C5: when the stored `npsso` value fails decryption (for example a
ciphertext under a lost key), `get_npsso_token` does not report "no
value": the encrypted read yields nothing, the legacy fallback returns
the raw stored string itself, and that raw string is re-encrypted and
stored while being returned as if it were the plaintext token. -/
theorem npsso_undecryptable_returns_raw (cryptKey : List Nat) (t : Nat)
    (db : List SettingsRow) (r : SettingsRow)
    (hfind : db.find? (fun row => row.key = "npsso") = some r)
    (hne : r.value ≠ "")
    (hdec : (decryptToken cryptKey r.value).isOk = false) :
    getSetting cryptKey "npsso" true db = none ∧
    getNpssoToken cryptKey t db
      = (some r.value, setSetting cryptKey "npsso" r.value true t db) ∧
    (getNpssoToken cryptKey t db).2.find? (fun row => row.key = "npsso")
      = some ⟨"npsso", encryptToken cryptKey r.value, t, t⟩ := by
  have hfb := getNpssoToken_fallback cryptKey t db r hfind hne hdec
  refine ⟨hfb.1, hfb.2, ?_⟩
  rw [hfb.2]
  simpa using find?_setSetting cryptKey "npsso" r.value true t db

/-- C5 witness: a table holding a ciphertext produced under a different
(all-ones) key; under the all-zero key the read returns that raw
ciphertext string itself. -/
theorem npsso_undecryptable_returns_raw_witness :
    getSetting (List.replicate 32 0) "npsso" true
        [⟨"npsso", encryptToken (List.replicate 32 1) "tok", 0, 0⟩] = none :=
  (npsso_undecryptable_returns_raw (List.replicate 32 0) 1
    [⟨"npsso", encryptToken (List.replicate 32 1) "tok", 0, 0⟩]
    ⟨"npsso", encryptToken (List.replicate 32 1) "tok", 0, 0⟩
    (by decide) (by decide) (by decide)).1

/-! ## Caching layer (src/utils/cache.py)

The profile cache `_profile_cache` is a Python dict from cache key to a
`(timestamp, value)` pair.  `time.time()` is modelled as an explicit
`now : Nat`; the supplied fetch function is modelled by the value it
would produce, and the returned triple records (result, resulting
cache, whether the fetch function was invoked). -/

/-- Dict lookup (`cache_key in _profile_cache` / indexing). -/
def dictLookup {V : Type} (k : String) : List (String × V) → Option V
  | [] => none
  | (k2, v) :: rest => if k2 = k then some v else dictLookup k rest

/-- Dict assignment `_profile_cache[cache_key] = v`: replaces in place,
appends when absent. -/
def dictSet {V : Type} (k : String) (v : V) :
    List (String × V) → List (String × V)
  | [] => [(k, v)]
  | (k2, v2) :: rest =>
      if k2 = k then (k, v) :: rest else (k2, v2) :: dictSet k v rest

/-- `get_cached_profile(cache_key, fetch_func, ...)` (cache.py lines
24-34): a hit strictly inside the 300-second TTL returns the cached
value; a miss or an expired entry invokes the fetch function and stores
its result under the current timestamp. -/
def getCachedProfile {V : Type} (now : Nat) (cacheKey : String) (fetched : V)
    (cache : List (String × Nat × V)) : V × List (String × Nat × V) × Bool :=
  match dictLookup cacheKey cache with
  | some (cachedTime, cachedData) =>
    if now - cachedTime < 300 then (cachedData, cache, false)
    else (fetched, dictSet cacheKey (now, fetched) cache, true)
  | none => (fetched, dictSet cacheKey (now, fetched) cache, true)

/-- C9: with an entry stored at time `t` under the same key, a call
strictly within 300 seconds of `t` returns the cached value unchanged
without invoking the fetch function and leaves the cache untouched; a
call at `t + 300` or later invokes the fetch function and overwrites
the entry with the fresh result and the current timestamp.  (The code
compares `time.time() - cached_time < 300`; for a clock running
backwards Python's negative difference and the truncated `Nat`
subtraction both count as a hit.) -/
theorem profile_cache_ttl {V : Type} (now t : Nat) (cacheKey : String)
    (v fetched : V) (cache : List (String × Nat × V))
    (hhit : dictLookup cacheKey cache = some (t, v)) :
    (now < t + 300 →
      getCachedProfile now cacheKey fetched cache = (v, cache, false)) ∧
    (t + 300 ≤ now →
      getCachedProfile now cacheKey fetched cache
        = (fetched, dictSet cacheKey (now, fetched) cache, true)) := by
  constructor
  · intro h
    simp only [getCachedProfile, hhit]
    rw [if_pos (by omega)]
  · intro h
    simp only [getCachedProfile, hhit]
    rw [if_neg (by omega)]

/-- C9 witness: a concrete single-entry cache, one hit at time 10 and
one expired call at time 300. -/
theorem profile_cache_ttl_witness :
    getCachedProfile 10 "k" 7 [("k", (0, 5))] = (5, [("k", (0, 5))], false) ∧
    getCachedProfile 300 "k" 7 [("k", (0, 5))]
      = (7, [("k", (300, 7))], true) := by
  constructor
  · exact (profile_cache_ttl 10 0 "k" 5 7 [("k", (0, 5))] (by decide)).1
      (by omega)
  · exact (profile_cache_ttl 300 0 "k" 5 7 [("k", (0, 5))] (by decide)).2
      (by omega)

/-! ## PSN client (src/core/client.py)

The third-party `psnawp` library is external; its response objects are
modelled as records whose fields carry either a value or a raised
exception (`Except`).  Optional duck-typed attributes (`hasattr`
probing) are modelled as `Option` fields; where the code probes two
attribute spellings for the same datum (`alpha_2` / `alpha_2_code`)
the pair is flattened into one optional field. -/

/-- One friend entry from `friends_list`: `online_id` attribute if
present, else an optional `get_profile()` dict whose `onlineId` key may
be absent, else the `str()` fallback. -/
structure PyFriend where
  onlineId : Option String
  profileOnlineId : Option (Option String)
  strRepr : String

/-- The per-friend extraction chain shared by `get_friends_list` and
`get_user_friends_list`. -/
def friendNameOf (f : PyFriend) : String :=
  match f.onlineId with
  | some n => n
  | none =>
    match f.profileOnlineId with
    | some p => p.getD "Unknown"
    | none => f.strRepr

/-- One entry from `title_stats`.  `conceptImageUrl = some v` stands for
"`concept` is present and truthy and has an `image_url` attribute whose
value is `v`" (`v = none` models Python `None`). -/
structure PyGame where
  name : Option String
  playCount : Option Nat
  category : Option String
  platform : Option String
  titleId : Option String
  progress : Option Nat
  playDuration : Option String
  firstPlayedDate : Option String
  lastPlayedDate : Option String
  imageUrl : Option String
  conceptImageUrl : Option (Option String)

/-- Python truthiness filter on an optional string: `None` and `""`
become `None` (`x if x else None`). -/
def optTruthy : Option String → Option String
  | some s => if s = "" then none else some s
  | none => none

/-- The `GameData` construction shared by `get_games_list` and
`get_user_games_list` (client.py lines 373-392 and 442-461):
`getattr` defaults for every field, truthiness-guarded `str()` plus
10-character truncation for the dates, and the two-step image-URL
probe. -/
def gameDataOfPyGame (g : PyGame) : GameData :=
  let base : GameData :=
    { name := g.name.getD "Unknown Game"
      play_count := g.playCount.getD 0
      category := g.category.getD "Unknown"
      platform := g.platform.getD "Unknown"
      title_id := g.titleId.getD ""
      progress := g.progress
      play_duration := optTruthy g.playDuration
      first_played := (optTruthy g.firstPlayedDate).map (fun s => ⟨s.data.take 10⟩)
      last_played := (optTruthy g.lastPlayedDate).map (fun s => ⟨s.data.take 10⟩)
      image_url := none }
  match optTruthy g.imageUrl with
  | some u => { base with image_url := some u }
  | none =>
    match g.conceptImageUrl with
    | some v => { base with image_url := v }
    | none => base

/-- `trophy_summary()` response: the four earned-trophy tiers and the
trophy level. -/
structure PyTrophySummary where
  bronze : Nat
  silver : Nat
  gold : Nat
  platinum : Nat
  trophyLevel : Nat

/-- The `TrophyData` construction used by `_fetch_profile` (client.py
lines 170-183) and `search_user` (lines 539-551): `total_count` is the
sum of the four tiers. -/
def trophyDataOfSummary (ts : PyTrophySummary) : TrophyData :=
  { bronze := ts.bronze, silver := ts.silver, gold := ts.gold,
    platinum := ts.platinum, level := ts.trophyLevel,
    total_count := ts.bronze + ts.silver + ts.gold + ts.platinum }

/-- The trophy step: attempted only when `include_trophies`; a raised
exception leaves the trophies absent. -/
def trophiesStep (summary : Except String PyTrophySummary)
    (include_trophies : Bool) : Option TrophyData :=
  if include_trophies then
    match summary with
    | .ok ts => some (trophyDataOfSummary ts)
    | .error _ => none
  else none

/-- `get_profile_legacy()` response: the `profile.avatarUrls` array
(absent field models a raised `KeyError`, which in the source leaves
the avatar unset but keeps the already-assigned base64 payload), and
the base64-encoded JSON serialization of the whole payload, kept
abstract. -/
structure PyLegacyProfile where
  avatarUrls : Option (List String)
  jsonB64 : String

/-- The `me()` response object. -/
structure PyMe where
  onlineId : String
  accountId : String
  getRegion : Except String (Option String)
  getProfileLegacy : Except String PyLegacyProfile
  trophySummary : Except String PyTrophySummary
  friendsList : Nat → Except String (List PyFriend)
  titleStats : Nat → Except String (List PyGame)

/-- The `user(online_id=...)` response object.  `hasFriendsList` /
`hasTitleStats` model the `hasattr` capability probes; `getPresence`
carries `last_online_date_time` when present. -/
structure PyUser where
  onlineId : Option String
  accountId : Except String String
  getRegion : Except String (Option String)
  getProfileLegacy : Except String PyLegacyProfile
  trophySummary : Except String PyTrophySummary
  getPresence : Except String (Option String)
  hasFriendsList : Bool
  friendsList : Nat → Except String (List PyFriend)
  hasTitleStats : Bool
  titleStats : Nat → Except String (List PyGame)

/-- The authenticated PSNAWP session: `me()` and `user()` accessors plus
the external `pycountry` dataset used as region-name fallback. -/
structure PsnApi where
  me : Except String PyMe
  user : String → Except String PyUser
  pycountry : String → Option String

/-- The client: `self.psnawp` is `None` until authentication succeeds. -/
structure PSNClient where
  psnawp : Option PsnApi

/-- `str.upper()` (ASCII subset). -/
def pyUpper (s : String) : String := ⟨s.data.map Char.toUpper⟩

/-- The built-in 20-entry region table of `_get_region_display`. -/
def commonRegions : List (String × String) :=
  [("US", "United States"), ("GB", "United Kingdom"), ("DE", "Germany"),
   ("FR", "France"), ("IT", "Italy"), ("ES", "Spain"), ("JP", "Japan"),
   ("KR", "South Korea"), ("AU", "Australia"), ("CA", "Canada"),
   ("BR", "Brazil"), ("MX", "Mexico"), ("RU", "Russia"), ("CN", "China"),
   ("IN", "India"), ("NL", "Netherlands"), ("SE", "Sweden"),
   ("NO", "Norway"), ("DK", "Denmark"), ("FI", "Finland")]

/-- `_get_region_display(region_code)` (client.py lines 201-243):
empty code gives "Unknown"; the built-in table is consulted first, then
the external `pycountry` dataset, then the bare upper-cased code.
(`get_cached_region` memoizes exactly this function, so a consistent
cache returns the same value; the cache state is not threaded here.) -/
def regionDisplay (pyc : String → Option String) (regionCode : String) :
    String :=
  if regionCode = "" then "Unknown"
  else
    let regionUpper := pyUpper regionCode
    match commonRegions.find? (fun p => p.1 = regionUpper) with
    | some p => p.2 ++ " (" ++ regionUpper ++ ")"
    | none =>
      match pyc regionUpper with
      | some nm => nm ++ " (" ++ regionUpper ++ ")"
      | none => regionUpper

/-- `PSNClient._fetch_profile` (client.py lines 124-199): resign-ID
derivation, region resolution, avatar / base64 payload extraction and
the optional trophy step; a top-level failure (the `me()` call) yields
an absent result. -/
def fetchProfile (api : PsnApi) (include_trophies skip_avatars : Bool) :
    Option UserProfile :=
  match api.me with
  | .error _ => none
  | .ok me =>
    let region_display :=
      match me.getRegion with
      | .ok (some code) => regionDisplay api.pycountry code
      | .ok none => "Unknown"
      | .error _ => "Unknown"
    let av_b64 : Option String × Option String :=
      match me.getProfileLegacy with
      | .error _ => (none, none)
      | .ok p =>
        (if skip_avatars then none
         else match p.avatarUrls with
           | some (u :: _) => some u
           | _ => none,
         some p.jsonB64)
    some { online_id := me.onlineId, account_id := me.accountId,
           resign_id := resignIdOfAccountId me.accountId,
           region := region_display, avatar_url := av_b64.1,
           trophies := trophiesStep me.trophySummary include_trophies,
           last_online := none, profile_base64 := av_b64.2 }

/-- `get_my_profile` (client.py lines 108-122): requires
authentication, always fetches fresh data. -/
def getMyProfile (c : PSNClient) (include_trophies skip_avatars : Bool) :
    Option UserProfile :=
  match c.psnawp with
  | none => none
  | some api => fetchProfile api include_trophies skip_avatars

/-- `get_friends_list` (client.py lines 245-293).  The progress
callback only emits status strings and never affects the returned
list, so it is not modelled; a per-friend extraction failure would be
skipped, the extraction chain itself is total. -/
def getFriendsList (c : PSNClient) (limit : Nat) : List String :=
  match c.psnawp with
  | none => []
  | some api =>
    match api.me with
    | .error _ => []
    | .ok me =>
      match me.friendsList limit with
      | .error _ => []
      | .ok fs => fs.map friendNameOf

/-- `get_user_friends_list` (client.py lines 295-357): empty input is
rejected; a case-insensitive match with the caller delegates to
`get_friends_list`; otherwise the target's list is attempted and any
failure (missing capability, raised exception — the private-list case)
degrades to an empty list. -/
def getUserFriendsList (c : PSNClient) (online_id : String) (limit : Nat) :
    List String :=
  match c.psnawp with
  | none => []
  | some api =>
    if online_id = "" || pyStrip online_id = "" then []
    else
      match api.me with
      | .error _ => []
      | .ok me =>
        if pyLower me.onlineId = pyLower (pyStrip online_id) then
          getFriendsList c limit
        else
          match api.user (pyStrip online_id) with
          | .error _ => []
          | .ok u =>
            if u.hasFriendsList then
              match u.friendsList limit with
              | .error _ => []
              | .ok fs => fs.map friendNameOf
            else []

/-- `get_games_list` (client.py lines 359-405). -/
def getGamesList (c : PSNClient) (limit : Nat) : List GameData :=
  match c.psnawp with
  | none => []
  | some api =>
    match api.me with
    | .error _ => []
    | .ok me =>
      match me.titleStats limit with
      | .error _ => []
      | .ok gs => gs.map gameDataOfPyGame

/-- `get_user_games_list` (client.py lines 407-483): mirrors
`get_user_friends_list`. -/
def getUserGamesList (c : PSNClient) (online_id : String) (limit : Nat) :
    List GameData :=
  match c.psnawp with
  | none => []
  | some api =>
    if online_id = "" || pyStrip online_id = "" then []
    else
      match api.me with
      | .error _ => []
      | .ok me =>
        if pyLower me.onlineId = pyLower (pyStrip online_id) then
          getGamesList c limit
        else
          match api.user (pyStrip online_id) with
          | .error _ => []
          | .ok u =>
            if u.hasTitleStats then
              match u.titleStats limit with
              | .error _ => []
              | .ok gs => gs.map gameDataOfPyGame
            else []

/-- `search_user` (client.py lines 485-577): like `_fetch_profile` but
for another user, additionally resolving `last_online` (first 19
characters of the presence timestamp with `T` replaced by a space);
any failure yields an absent result. -/
def searchUser (c : PSNClient) (online_id : String) : Option UserProfile :=
  match c.psnawp with
  | none => none
  | some api =>
    if online_id = "" || pyStrip online_id = "" then none
    else
      match api.user (pyStrip online_id) with
      | .error _ => none
      | .ok u =>
        match u.accountId with
        | .error _ => none
        | .ok account_id =>
          let region_display :=
            match u.getRegion with
            | .ok (some code) => regionDisplay api.pycountry code
            | .ok none => "Unknown"
            | .error _ => "Unknown"
          let av_b64 : Option String × Option String :=
            match u.getProfileLegacy with
            | .error _ => (none, none)
            | .ok p =>
              (match p.avatarUrls with
               | some (u1 :: _) => some u1
               | _ => none,
               some p.jsonB64)
          let last_online :=
            match u.getPresence with
            | .ok (some s) =>
              if s = "" then none
              else some ⟨(s.data.take 19).map
                (fun ch => if ch = 'T' then ' ' else ch)⟩
            | .ok none => none
            | .error _ => none
          let result_online_id :=
            match u.onlineId with
            | some f => if f = "" then online_id else f
            | none => online_id
          some { online_id := result_online_id, account_id := account_id,
                 resign_id := resignIdOfAccountId account_id,
                 region := region_display, avatar_url := av_b64.1,
                 trophies := trophiesStep u.trophySummary true,
                 last_online := last_online, profile_base64 := av_b64.2 }

/-- One entry of the plain key/value maps returned by
`search_users_by_name` (client.py lines 596-604). -/
structure SearchEntry where
  online_id : String
  account_id : String
  region : String
  avatar_url : Option String
  trophies : Option TrophyData
  last_online : Option String
  profile_base64 : Option String
deriving DecidableEq

/-- `search_users_by_name` (client.py lines 579-611): degrades to
`search_user` on the stripped input and wraps a single match. -/
def searchUsersByName (c : PSNClient) (name : String) (limit : Nat) :
    List SearchEntry :=
  match c.psnawp with
  | none => []
  | some api =>
    if name = "" || pyStrip name = "" then []
    else
      match searchUser c (pyStrip name) with
      | some u => [⟨u.online_id, u.account_id, u.region, u.avatar_url,
                    u.trophies, u.last_online, u.profile_base64⟩]
      | none => []

/-- C7: every PSN client data operation called while unauthenticated
(`psnawp = None`) returns an empty list or absent value — by
construction no exception escapes, the embedding of each operation is
a total function whose exception handling is already folded in; and
for an authenticated client, `get_user_friends_list` /
`get_user_games_list` on another user whose list access raises (the
private / inaccessible case) return an empty list. -/
theorem client_empty_result_degradation :
    (∀ (incl skip : Bool) (limit : Nat) (oid name : String),
      getMyProfile ⟨none⟩ incl skip = none ∧
      getFriendsList ⟨none⟩ limit = [] ∧
      getUserFriendsList ⟨none⟩ oid limit = [] ∧
      getGamesList ⟨none⟩ limit = [] ∧
      getUserGamesList ⟨none⟩ oid limit = [] ∧
      searchUser ⟨none⟩ oid = none ∧
      searchUsersByName ⟨none⟩ name limit = []) ∧
    (∀ (api : PsnApi) (me : PyMe) (u : PyUser) (oid : String) (limit : Nat)
        (e1 e2 : String),
      api.me = .ok me →
      oid ≠ "" →
      pyStrip oid ≠ "" →
      pyLower me.onlineId ≠ pyLower (pyStrip oid) →
      api.user (pyStrip oid) = .ok u →
      (u.friendsList limit = .error e1 →
        getUserFriendsList ⟨some api⟩ oid limit = []) ∧
      (u.titleStats limit = .error e2 →
        getUserGamesList ⟨some api⟩ oid limit = [])) := by
  constructor
  · intro incl skip limit oid name
    exact ⟨rfl, rfl, rfl, rfl, rfl, rfl, rfl⟩
  · intro api me u oid limit e1 e2 hme hoid1 hoid2 hdiff huser
    constructor
    · intro hferr
      simp only [getUserFriendsList, hme, huser]
      rw [if_neg (by simp [hoid1, hoid2])]
      rw [if_neg hdiff]
      by_cases hhf : u.hasFriendsList
      · simp [hhf, hferr]
      · simp [hhf]
    · intro hgerr
      simp only [getUserGamesList, hme, huser]
      rw [if_neg (by simp [hoid1, hoid2])]
      rw [if_neg hdiff]
      by_cases hht : u.hasTitleStats
      · simp [hht, hgerr]
      · simp [hht]

/-- C7 witness: the unauthenticated conjunct at concrete arguments, and
the private-list conjunct for a concrete authenticated client whose
target user raises on both list accesses. -/
theorem client_empty_result_degradation_witness :
    getUserFriendsList ⟨none⟩ "target" 100 = [] ∧
    getUserFriendsList
      ⟨some ⟨.ok ⟨"me", "1", .error "x", .error "x", .error "x",
          fun _ => .error "x", fun _ => .error "x"⟩,
        fun _ => .ok ⟨some "target", .ok "2", .error "x", .error "x",
          .error "x", .error "x", true, fun _ => .error "private", true,
          fun _ => .error "private"⟩,
        fun _ => none⟩⟩ "target" 100 = [] := by
  constructor
  · exact (client_empty_result_degradation.1 true false 100 "target" "n").2.2.1
  · exact ((client_empty_result_degradation.2 _
      ⟨"me", "1", .error "x", .error "x", .error "x",
        fun _ => .error "x", fun _ => .error "x"⟩
      ⟨some "target", .ok "2", .error "x", .error "x", .error "x",
        .error "x", true, fun _ => .error "private", true,
        fun _ => .error "private"⟩
      "target" 100 "private" "private"
      rfl (by decide) (by decide) (by decide) rfl).1) rfl

/-- Helper: any trophy record produced by the trophy step satisfies the
tier-sum invariant. -/
theorem trophiesStep_total {summary : Except String PyTrophySummary}
    {incl : Bool} {t : TrophyData} (h : trophiesStep summary incl = some t) :
    t.total_count = t.bronze + t.silver + t.gold + t.platinum := by
  simp only [trophiesStep] at h
  split at h
  · split at h
    next ts heq =>
      simp only [Option.some.injEq] at h
      subst h
      rfl
    next => exact absurd h (by simp)
  · exact absurd h (by simp)

/-- C8: every `TrophyData` built by the client from a trophy summary —
in `get_my_profile`'s trophy step and in `search_user` — satisfies
`total_count = bronze + silver + gold + platinum` at construction. -/
theorem trophy_total_invariant :
    (∀ (c : PSNClient) (incl skip : Bool) (p : UserProfile) (t : TrophyData),
      getMyProfile c incl skip = some p → p.trophies = some t →
      t.total_count = t.bronze + t.silver + t.gold + t.platinum) ∧
    (∀ (c : PSNClient) (oid : String) (p : UserProfile) (t : TrophyData),
      searchUser c oid = some p → p.trophies = some t →
      t.total_count = t.bronze + t.silver + t.gold + t.platinum) := by
  constructor
  · intro c incl skip p t hp ht
    rcases c with ⟨psn⟩
    cases psn with
    | none => exact absurd hp (by simp [getMyProfile])
    | some api =>
      simp only [getMyProfile, fetchProfile] at hp
      split at hp
      next => exact absurd hp (by simp)
      next me hme =>
        simp only [Option.some.injEq] at hp
        subst hp
        exact trophiesStep_total ht
  · intro c oid p t hp ht
    rcases c with ⟨psn⟩
    cases psn with
    | none => exact absurd hp (by simp [searchUser])
    | some api =>
      simp only [searchUser] at hp
      split at hp
      next => exact absurd hp (by simp)
      split at hp
      next => exact absurd hp (by simp)
      next u huser =>
        split at hp
        next => exact absurd hp (by simp)
        next aid haid =>
          simp only [Option.some.injEq] at hp
          subst hp
          have ht2 : trophiesStep u.trophySummary true = some t := ht
          exact trophiesStep_total ht2

/-- C8 witness: a concrete client whose `me()` carries the trophy
summary (1, 2, 3, 4); the built record has `total_count = 10`. -/
theorem trophy_total_invariant_witness :
    (⟨1, 2, 3, 4, 5, 10⟩ : TrophyData).total_count
      = (⟨1, 2, 3, 4, 5, 10⟩ : TrophyData).bronze
        + (⟨1, 2, 3, 4, 5, 10⟩ : TrophyData).silver
        + (⟨1, 2, 3, 4, 5, 10⟩ : TrophyData).gold
        + (⟨1, 2, 3, 4, 5, 10⟩ : TrophyData).platinum :=
  trophy_total_invariant.1
    ⟨some ⟨.ok ⟨"me", "1000", .error "x", .error "x", .ok ⟨1, 2, 3, 4, 5⟩,
      fun _ => .error "x", fun _ => .error "x"⟩,
      fun _ => .error "x", fun _ => none⟩⟩
    true false
    ⟨"me", "1000", "3e8", "Unknown", none, some ⟨1, 2, 3, 4, 5, 10⟩,
      none, none⟩
    ⟨1, 2, 3, 4, 5, 10⟩ rfl rfl

/-! ## Business-logic cogs (src/cogs/friends_cog.py, src/cogs/games_cog.py) -/

/-- `FriendsCog.get_friends_list(self, limit=50)` (friends_cog.py lines
26-33): delegates to the client; `friends if friends else []` returns
the same list value. -/
def friendsCogGetFriendsList (client : PSNClient) (limit : Nat) :
    List String :=
  getFriendsList client limit

/-- `GamesCog.get_games_list(self, limit=20)` (games_cog.py lines
26-33). -/
def gamesCogGetGamesList (client : PSNClient) (limit : Nat) :
    List GameData :=
  getGamesList client limit

/-! ## Asynchronous task workers (src/gui.py) -/

/-- The terminal outcome of a worker run: exactly one `finished`
(success) or `error` signal. -/
inductive WorkerOutcome where
  | success : List String → WorkerOutcome
  | error : String → WorkerOutcome
deriving DecidableEq

/-- The parameter names of `FriendsCog.get_friends_list`
(friends_cog.py line 26): `(self, limit)` — no `progress_callback`
parameter and no keyword catch-all. -/
def friendsCogGetFriendsListParams : List String := ["self", "limit"]

/-- The keyword-argument names used at the call site
`self.friends_cog.get_friends_list(limit=..., progress_callback=...)`
(gui.py line 144). -/
def friendsLoaderCallKwargs : List String := ["limit", "progress_callback"]

/-- `FriendsLoaderThread.run` (gui.py lines 141-147): Python binds the
keyword arguments against the cog method's parameter list and raises
`TypeError` at the call site when a keyword matches no parameter; the
surrounding `except` then emits the error outcome instead of the
friends list. -/
def friendsLoaderThreadRun (client : PSNClient) (limit : Nat) :
    WorkerOutcome :=
  if friendsLoaderCallKwargs.all
      (fun k => friendsCogGetFriendsListParams.contains k) then
    .success (friendsCogGetFriendsList client limit)
  else
    .error "Error loading friends: unexpected keyword argument progress_callback"

/-- C2 (evaluation of the failing code): the Friends Loader worker
never reaches its success outcome — every run raises `TypeError`
because gui.py passes `progress_callback` to
`FriendsCog.get_friends_list`, which does not accept it, and the
worker emits the error outcome instead of the caller's friends
list. -/
theorem friends_loader_always_errors (client : PSNClient) (limit : Nat) :
    friendsLoaderThreadRun client limit
      = .error "Error loading friends: unexpected keyword argument progress_callback" := by
  rfl

/-! ## JSON export (src/cogs/friends_cog.py lines 53-58,
src/cogs/games_cog.py lines 35-41)

The JSON value written by `json.dump` is modelled as a tree; Python
dicts keep insertion order, so object keys are ordered lists. -/

/-- The JSON values produced by the exports. -/
inductive PyJson where
  | str : String → PyJson
  | num : Int → PyJson
  | null : PyJson
  | arr : List PyJson → PyJson
  | obj : List (String × PyJson) → PyJson

/-- Optional string field: Python `None` serializes as `null`. -/
def optStrJson : Option String → PyJson
  | some s => .str s
  | none => .null

/-- Optional integer field. -/
def optNatJson : Option Nat → PyJson
  | some n => .num n
  | none => .null

/-- `dataclasses.asdict(game)`: keys in field declaration order of
`GameData` (models.py lines 17-28). -/
def gameAsdict (g : GameData) : List (String × PyJson) :=
  [("name", .str g.name), ("play_count", .num g.play_count),
   ("category", .str g.category), ("platform", .str g.platform),
   ("title_id", .str g.title_id), ("progress", optNatJson g.progress),
   ("play_duration", optStrJson g.play_duration),
   ("first_played", optStrJson g.first_played),
   ("last_played", optStrJson g.last_played),
   ("image_url", optStrJson g.image_url)]

/-- `FriendsCog.export_friends`: writes
`{"friends": [...], "count": len(friends)}`. -/
def exportFriendsJson (friends : List String) : PyJson :=
  .obj [("friends", .arr (friends.map .str)),
        ("count", .num friends.length)]

/-- `GamesCog.export_games`: writes `[asdict(game) for game in games]`. -/
def exportGamesJson (games : List GameData) : PyJson :=
  .arr (games.map (fun g => .obj (gameAsdict g)))

/-- Key list of a JSON object. -/
def jsonObjKeys : PyJson → List String
  | .obj l => l.map Prod.fst
  | _ => []

/-- C10: exporting an empty friends list writes exactly
`{"friends": [], "count": 0}`, and exporting N games writes a JSON
array of exactly N objects, each of whose key lists is exactly
GameData's field names in declaration order. -/
theorem export_shapes :
    exportFriendsJson [] = .obj [("friends", .arr []), ("count", .num 0)] ∧
    ∀ games : List GameData,
      exportGamesJson games
          = .arr (games.map (fun g => .obj (gameAsdict g))) ∧
      (games.map (fun g => PyJson.obj (gameAsdict g))).length
          = games.length ∧
      ∀ j ∈ games.map (fun g => PyJson.obj (gameAsdict g)),
        jsonObjKeys j
          = ["name", "play_count", "category", "platform", "title_id",
             "progress", "play_duration", "first_played", "last_played",
             "image_url"] := by
  refine ⟨rfl, ?_⟩
  intro games
  refine ⟨rfl, List.length_map _ _, ?_⟩
  intro j hj
  rcases List.mem_map.1 hj with ⟨g, hg, rfl⟩
  rfl

/-- C10 witness: a one-element games list evaluated concretely. -/
theorem export_shapes_witness :
    jsonObjKeys (PyJson.obj (gameAsdict
        ⟨"g", 0, "", "", "", none, none, none, none, none⟩))
      = ["name", "play_count", "category", "platform", "title_id",
         "progress", "play_duration", "first_played", "last_played",
         "image_url"] :=
  (export_shapes.2 [⟨"g", 0, "", "", "", none, none, none, none, none⟩]).2.2
    (PyJson.obj (gameAsdict ⟨"g", 0, "", "", "", none, none, none, none, none⟩))
    (by simp)
